import Mathlib

/-
  Verification of the git2r binding layer (src/git2r.c, src/git2r_graph.c,
  src/git2r_note.c, src/git2r_repository.c) against its specification.

  The C routines are shallowly embedded: R SEXP arguments become small
  inductive types, libgit2 calls whose contracts the specification
  describes are modelled from the spec, and each bindings control flow
  (argument checks, goto-cleanup error propagation, R error raising) is
  translated as an Except value.
-/

namespace Git2r

/-- Error kinds surfaced by the bindings: libgit2 error codes
(ENOTFOUND, EEXISTS), R-level argument errors, the invalid-repository
error, a NULL dereference (models a crash), and a generic libgit2
failure reported via giterr_last. -/
inductive GErr where
  | enotfound
  | eexists
  | einvalid
  | invalidRepository
  | nullDeref
  | libgit2
deriving DecidableEq, Repr

/-! ## Commit graph and descendant queries (src/git2r_graph.c, C1) -/

/-- Modelled from the spec: the commit graph read through the Object
Store. Commits are identified by ids; `parents c` is the ordered list
of parent ids of commit `c` (0 for a root, 1 normal, 2 or more for a
merge). -/
structure CommitStore where
  parents : Nat → List Nat

/-- A store is well formed when every parent id is strictly smaller
than the child id: content addressing forces parents to exist before
their children, so the graph is acyclic and ids can be taken in
topological order. -/
def WellFormed (s : CommitStore) : Prop :=
  ∀ c p, p ∈ s.parents c → p < c

/-- Modelled from the spec: the bounded DFS over Object Store reads of
commit parent links, short-circuiting on the first match, that
implements the descendant query. `fuel` bounds the recursion depth. -/
def descendsFuel (s : CommitStore) : Nat → Nat → Nat → Bool
  | 0, _, _ => false
  | fuel + 1, c, a => (s.parents c).any (fun p => p == a || descendsFuel s fuel p a)

/-- Modelled from the spec: `git_graph_descendant_of` — true iff the
ancestor is reachable by following the parent chain (any parent, not
just the first) from the commit, excluding exact equality of the two
ids. In a well-formed store every chain from `c` strictly decreases,
so fuel `c` suffices. -/
def git_graph_descendant_of (s : CommitStore) (c a : Nat) : Bool :=
  descendsFuel s c c a

/-- The wrapper `git2r_graph_descendant_of` (src/git2r_graph.c):
returns FALSE when the underlying query yields 0 and TRUE otherwise
(negative results raise an R error before this point). -/
def git2r_graph_descendant_of (s : CommitStore) (c a : Nat) : Bool :=
  if git_graph_descendant_of s c a = false then false else true

/-- Reachability along parent links in one or more steps. -/
inductive Reaches (s : CommitStore) : Nat → Nat → Prop where
  | parent : ∀ {c p}, p ∈ s.parents c → Reaches s c p
  | step : ∀ {c p a}, p ∈ s.parents c → Reaches s p a → Reaches s c a

theorem descendsFuel_mono (s : CommitStore) :
    ∀ f f' c a, f ≤ f' → descendsFuel s f c a = true → descendsFuel s f' c a = true := by
  intro f
  induction f with
  | zero => intro f' c a _ h; simp [descendsFuel] at h
  | succ f ih =>
    intro f' c a hle h
    match f', hle with
    | f' + 1, hle =>
      simp only [descendsFuel, List.any_eq_true] at h ⊢
      obtain ⟨p, hp, hcase⟩ := h
      refine ⟨p, hp, ?_⟩
      rcases Bool.or_eq_true_iff.mp hcase with heq | hrec
      · exact Bool.or_eq_true_iff.mpr (Or.inl heq)
      · exact Bool.or_eq_true_iff.mpr (Or.inr (ih f' p a (Nat.le_of_succ_le_succ hle) hrec))

theorem descendsFuel_lt (s : CommitStore) (hwf : WellFormed s) :
    ∀ f c a, descendsFuel s f c a = true → a < c := by
  intro f
  induction f with
  | zero => intro c a h; simp [descendsFuel] at h
  | succ f ih =>
    intro c a h
    simp only [descendsFuel, List.any_eq_true] at h
    obtain ⟨p, hp, hcase⟩ := h
    rcases Bool.or_eq_true_iff.mp hcase with heq | hrec
    · have : p = a := by simpa using heq
      subst this
      exact hwf c p hp
    · exact Nat.lt_trans (ih p a hrec) (hwf c p hp)

theorem descendsFuel_complete (s : CommitStore) (hwf : WellFormed s) :
    ∀ {c a}, Reaches s c a → ∀ f, c ≤ f → descendsFuel s f c a = true := by
  intro c a h
  induction h with
  | parent hp =>
    rename_i c p
    intro f hf
    have hc : 1 ≤ c := Nat.one_le_iff_ne_zero.mpr (by
      intro hzero
      subst hzero
      exact Nat.not_lt_zero p (hwf 0 p hp))
    match f, Nat.le_trans hc hf with
    | f + 1, _ =>
      simp only [descendsFuel, List.any_eq_true]
      exact ⟨p, hp, Bool.or_eq_true_iff.mpr (Or.inl (by simp))⟩
  | step hp hreach ih =>
    rename_i c p a
    intro f hf
    have hpc : p < c := hwf c p hp
    have hc : 1 ≤ c := Nat.lt_of_le_of_lt (Nat.zero_le p) hpc
    match f, Nat.le_trans hc hf with
    | f + 1, _ =>
      simp only [descendsFuel, List.any_eq_true]
      refine ⟨p, hp, Bool.or_eq_true_iff.mpr (Or.inr ?_)⟩
      have hf' : p ≤ f := by omega
      exact ih f hf'

/-- C1: for every commit X, `is_descendant_of(X, X)` is false, and
whenever the ancestor is reachable by following the parent chain (any
parent) from the commit, `is_descendant_of(commit, ancestor)` is true;
exact equality of ids never counts as descendance. -/
theorem descendant_of_correct (s : CommitStore) (hwf : WellFormed s) (c a : Nat) :
    git2r_graph_descendant_of s c c = false ∧
    (Reaches s c a → git2r_graph_descendant_of s c a = true) := by
  constructor
  · unfold git2r_graph_descendant_of git_graph_descendant_of
    have : descendsFuel s c c c = false := by
      cases h : descendsFuel s c c c with
      | false => rfl
      | true => exact absurd (descendsFuel_lt s hwf c c c h) (Nat.lt_irrefl c)
    simp [this]
  · intro hreach
    unfold git2r_graph_descendant_of git_graph_descendant_of
    have : descendsFuel s c c a = true :=
      descendsFuel_complete s hwf hreach c (Nat.le_refl c)
    simp [this]

/-- A concrete three-commit store: 0 is the root, 1 has parent 0,
2 is a merge with parents 1 and 0. -/
def sampleStore : CommitStore :=
  ⟨fun c => if c = 1 then [0] else if c = 2 then [1, 0] else []⟩

theorem sampleStore_wf : WellFormed sampleStore := by
  intro c p hp
  unfold sampleStore at hp
  by_cases h1 : c = 1
  · subst h1; simp at hp; omega
  · by_cases h2 : c = 2
    · subst h2; simp at hp; rcases hp with h | h <;> omega
    · simp [h1, h2] at hp

theorem descendant_of_correct_witness :
    git2r_graph_descendant_of sampleStore 2 2 = false ∧
    git2r_graph_descendant_of sampleStore 2 0 = true := by
  refine ⟨(descendant_of_correct sampleStore sampleStore_wf 2 0).1, ?_⟩
  refine (descendant_of_correct sampleStore sampleStore_wf 2 0).2 ?_
  refine Reaches.step (p := 1) ?_ (Reaches.parent ?_)
  · simp [sampleStore]
  · simp [sampleStore]

/-! ## Notes subsystem (src/git2r_note.c, C2 and C3) -/

/-- The notes stored on one notes reference: pairs of the annotated
object id and the note message. -/
abbrev NotesMap := List (Nat × String)

/-- The messages of the notes attached to one target object. -/
def notesFor (m : NotesMap) (target : Nat) : List String :=
  (List.filter (fun e => e.1 == target) m).map (fun e => e.2)

/-- Modelled from the spec: `git_note_create` (libgit2) — fails with
EEXISTS when the target already has a note on the reference unless
`overwrite` is set, in which case the previous note is replaced. -/
def git_note_create (m : NotesMap) (target : Nat) (msg : String) (overwrite : Bool) :
    Except GErr NotesMap :=
  if List.any m (fun e => e.1 == target) then
    if overwrite then
      Except.ok ((target, msg) :: List.filter (fun e => e.1 != target) m)
    else Except.error GErr.eexists
  else Except.ok ((target, msg) :: m)

/-- The wrapper `git2r_note_create` (src/git2r_note.c): maps the R
`force` logical to the overwrite flag of libgit2, calls `git_note_create`,
and raises an R error when it fails; on success the created note
(read back via `git_note_read`) carries the new message. -/
def git2r_note_create (m : NotesMap) (target : Nat) (msg : String) (force : Bool) :
    Except GErr (NotesMap × String) :=
  match git_note_create m target msg force with
  | Except.error e => Except.error e
  | Except.ok m2 => Except.ok (m2, msg)

/-- The notes state of a repository: the configured default notes reference
and, per reference name, the notes stored there (none when the
reference does not exist). -/
structure NotesRepo where
  defaultRef : String
  refs : String → Option NotesMap

/-- Modelled from the spec: `git_note_default_ref` (libgit2) returns
the configured default notes reference of the repository. -/
def git_note_default_ref (r : NotesRepo) : String :=
  r.defaultRef

/-- Modelled from the spec: `git_note_foreach` (libgit2) iterates the
notes on a reference, failing with ENOTFOUND when the reference does
not exist. -/
def git_note_foreach (r : NotesRepo) (ref : String) : Except GErr NotesMap :=
  match r.refs ref with
  | none => Except.error GErr.enotfound
  | some m => Except.ok m

/-- The wrapper `git2r_note_list` (src/git2r_note.c): defaults the
notes reference to `git_note_default_ref` when the R argument is nil,
then iterates; an ENOTFOUND from the iteration is converted to an
empty result list (err is reset to 0), any other failure raises an R
error. -/
def git2r_note_list (r : NotesRepo) (ref : Option String) : Except GErr NotesMap :=
  let notesRef := match ref with
    | none => git_note_default_ref r
    | some s => s
  match git_note_foreach r notesRef with
  | Except.error GErr.enotfound => Except.ok []
  | Except.error e => Except.error e
  | Except.ok m => Except.ok m

theorem filter_ne_then_eq (m : NotesMap) (x : Nat) :
    List.filter (fun e => e.1 == x) (List.filter (fun (e : Nat × String) => e.1 != x) m) = [] := by
  rw [List.filter_filter]
  apply List.filter_eq_nil_iff.mpr
  intro e _
  simp

/-- C2: when the target object already has a note on the reference,
note creation without overwrite fails with the already-exists error,
and with overwrite it succeeds and replaces the note, so listing the
notes for that target afterwards yields exactly the new message. -/
theorem note_create_overwrite (m : NotesMap) (x : Nat) (m1 msg2 : String)
    (hx : (x, m1) ∈ m) :
    git2r_note_create m x msg2 false = Except.error GErr.eexists ∧
    ∃ m2, git2r_note_create m x msg2 true = Except.ok (m2, msg2) ∧
      notesFor m2 x = [msg2] := by
  have hany : List.any m (fun e => e.1 == x) = true := by
    rw [List.any_eq_true]
    exact ⟨(x, m1), hx, by simp⟩
  constructor
  · simp [git2r_note_create, git_note_create, hany]
  · refine ⟨(x, msg2) :: List.filter (fun e => e.1 != x) m, ?_, ?_⟩
    · simp [git2r_note_create, git_note_create, hany]
    · simp [notesFor, List.filter, filter_ne_then_eq]

theorem note_create_overwrite_witness :
    git2r_note_create [(5, "m1")] 5 "m2" false = Except.error GErr.eexists ∧
    ∃ m2, git2r_note_create [(5, "m1")] 5 "m2" true = Except.ok (m2, "m2") ∧
      notesFor m2 5 = ["m2"] :=
  note_create_overwrite [(5, "m1")] 5 "m1" "m2" (by simp)

/-- C3: listing notes with a nil reference argument uses the
configured default notes reference of the repository, and when the notes
reference does not exist the listing returns an empty sequence rather
than an error. -/
theorem note_list_default_and_missing (r : NotesRepo) (ref : String) :
    git2r_note_list r none = git2r_note_list r (some (git_note_default_ref r)) ∧
    (r.refs ref = none → git2r_note_list r (some ref) = Except.ok []) ∧
    (r.refs (git_note_default_ref r) = none → git2r_note_list r none = Except.ok []) := by
  refine ⟨rfl, ?_, ?_⟩
  · intro h
    simp [git2r_note_list, git_note_foreach, h]
  · intro h
    simp [git2r_note_list, git_note_foreach, git_note_default_ref] at h ⊢
    simp [h]

/-- A notes repository whose default reference holds no notes object. -/
def emptyNotesRepo : NotesRepo :=
  ⟨"refs/notes/commits", fun _ => none⟩

theorem note_list_default_and_missing_witness :
    git2r_note_list emptyNotesRepo (some "refs/notes/extra") = Except.ok [] ∧
    git2r_note_list emptyNotesRepo none = Except.ok [] :=
  ⟨(note_list_default_and_missing emptyNotesRepo "refs/notes/extra").2.1 rfl,
   (note_list_default_and_missing emptyNotesRepo "refs/notes/extra").2.2 rfl⟩

/-! ## config and fetch (src/git2r.c, C4) -/

/-- The loop body of `config` (src/git2r.c): sets each variable with
`git_config_set_string`, jumping to cleanup (stopping) at the first
negative return. The abstract `cfgSet` stands for the underlying
return code of the underlying library call. Returns the value the local `err` holds
on arrival at the cleanup label. -/
def git_config_set_loop (cfgSet : String → String → Int) : List (String × String) → Int
  | [] => 0
  | (k, v) :: rest =>
    let err := cfgSet k v
    if err < 0 then err else git_config_set_loop cfgSet rest

/-- The value of the local `err` when `config` (src/git2r.c) reaches
its cleanup label: the result of `git_repository_config` if negative,
otherwise the first failing `git_config_set_string` return code, else
0. -/
def configErr (cfgOpen : Int) (cfgSet : String → String → Int)
    (vars : List (String × String)) : Int :=
  if cfgOpen < 0 then cfgOpen else git_config_set_loop cfgSet vars

/-- The routine `config` (src/git2r.c:316): after the argument and
repository checks it computes `err` as above, but its cleanup label
frees the handles and returns R_NilValue without ever testing `err`,
so the routine reports success regardless. -/
def config (cfgOpen : Int) (cfgSet : String → String → Int)
    (vars : List (String × String)) : Except GErr Unit :=
  let err := configErr cfgOpen cfgSet vars
  let _ := err
  Except.ok ()

/-- The value of the local `err` when `fetch` (src/git2r.c) reaches
its cleanup label: the result of `git_remote_load` if negative,
otherwise the result of `git_remote_fetch`. -/
def fetchErr (loadRemote : String → Int) (doFetch : Int) (name : String) : Int :=
  let err := loadRemote name
  if err < 0 then err else doFetch

/-- The routine `fetch` (src/git2r.c:362): validates the remote name
(raising an R error for a nil or non-string argument), then loads and
fetches the remote; its cleanup label disconnects, frees and returns
R_NilValue without testing `err`, so underlying failures are
discarded. -/
def fetch (loadRemote : String → Int) (doFetch : Int) (name : Option String) :
    Except GErr Unit :=
  match name with
  | none => Except.error GErr.einvalid
  | some n =>
    let err := fetchErr loadRemote doFetch n
    let _ := err
    Except.ok ()

/-- C4: the claim that no operation swallows an error does not hold of
the code: `config` and `fetch` both reach their cleanup label with a
negative `err` from the underlying library and still return success
(R_NilValue) because the cleanup never tests `err`. Here a failing
`git_config_set_string` and a failing `git_remote_fetch` each leave
err = -1 yet both routines return ok. -/
theorem config_fetch_swallow_errors :
    configErr 0 (fun _ _ => -1) [("user.name", "x")] = -1 ∧
    config 0 (fun _ _ => -1) [("user.name", "x")] = Except.ok () ∧
    fetchErr (fun _ => 0) (-1) "origin" = -1 ∧
    fetch (fun _ => 0) (-1) (some "origin") = Except.ok () := by
  refine ⟨?_, rfl, ?_, rfl⟩ <;> rfl

/-! ## can_open and is_repository (src/git2r_repository.c, src/git2r.c, C5) -/

/-- An R argument as the path-taking bindings see it: nil, a single
character string, or some other R value. -/
inductive RArg where
  | nil
  | str : String → RArg
  | other
deriving DecidableEq, Repr

/-- Modelled from the spec: `git2r_arg_check_string` (git2r_arg.c, not
under src/) — returns 0 when the argument is a single character
string and a nonzero error code otherwise (nil or non-string values). -/
def git2r_arg_check_string : RArg → Int
  | RArg.str _ => 0
  | _ => -1

/-- The string held by a checked path argument. -/
def pathStr : RArg → String
  | RArg.str s => s
  | _ => ""

/-- The routine `git2r_repository_can_open` (src/git2r_repository.c:283):
raises an R error when `git2r_arg_check_string` rejects the path, and
otherwise probes `git_repository_open` (abstracted as `opens`) and
returns TRUE or FALSE. -/
def git2r_repository_can_open (opens : String → Bool) (path : RArg) : Except GErr Bool :=
  if git2r_arg_check_string path ≠ 0 then Except.error GErr.einvalid
  else Except.ok (opens (pathStr path))

/-- The routine `is_repository` (src/git2r.c:591): raises an R error
when the path is nil or not a string, and otherwise returns TRUE iff
`git_repository_open` succeeds. -/
def is_repository (opens : String → Bool) (path : RArg) : Except GErr Bool :=
  match path with
  | RArg.nil => Except.error GErr.einvalid
  | RArg.other => Except.error GErr.einvalid
  | RArg.str s => Except.ok (opens s)

/-- C5 counterexample: the claim says `can_open` never throws for any
input including non-string paths, but both probing routines raise an
R error on a nil path argument before probing anything. -/
theorem can_open_throws_on_nil :
    git2r_repository_can_open (fun _ => false) RArg.nil = Except.error GErr.einvalid ∧
    is_repository (fun _ => false) RArg.nil = Except.error GErr.einvalid :=
  ⟨rfl, rfl⟩

/-- C5 amended: for every path argument that is a single string, the
probing routines never throw — they return TRUE or FALSE exactly as
the underlying open succeeds or fails; only nil or non-string
arguments raise the invalid-argument error. -/
theorem can_open_probes_and_reports (opens : String → Bool) (s : String) :
    git2r_repository_can_open opens (RArg.str s) = Except.ok (opens s) ∧
    is_repository opens (RArg.str s) = Except.ok (opens s) := by
  constructor
  · simp [git2r_repository_can_open, git2r_arg_check_string, pathStr]
  · rfl

/-! ## Repository discovery (src/git2r_repository.c, C6) -/

/-- A filesystem for discovery: a directory is a list of path
components, deepest first (the tail is the parent directory).
`isRepo` says whether a directory carries the repository marker and
`dev` gives its filesystem device id. -/
structure FS where
  isRepo : List String → Bool
  dev : List String → Nat

/-- Modelled from the spec: `git_repository_discover` (libgit2) with
across_fs = 0 — walks parent directories looking for the repository
marker, stopping with ENOTFOUND when the parent lies on a different
filesystem device or when the root is passed without a find. -/
def git_repository_discover (fs : FS) : List String → Except GErr (List String)
  | [] => if fs.isRepo [] then Except.ok [] else Except.error GErr.enotfound
  | d :: rest =>
    if fs.isRepo (d :: rest) then Except.ok (d :: rest)
    else if fs.dev rest = fs.dev (d :: rest) then git_repository_discover fs rest
    else Except.error GErr.enotfound

/-- The directories the walk may examine: the starting directory and
its parents up to (not across) the first device boundary. -/
def searchChain (fs : FS) : List String → List (List String)
  | [] => [[]]
  | d :: rest =>
    (d :: rest) :: (if fs.dev rest = fs.dev (d :: rest) then searchChain fs rest else [])

/-- The wrapper `git2r_repository_discover` (src/git2r_repository.c:342):
calls the library walk with across_fs = 0, converts ENOTFOUND to an R
nil result (err is reset to GIT_OK), and raises an R error only for
other failures. -/
def git2r_repository_discover (fs : FS) (path : List String) :
    Except GErr (Option (List String)) :=
  match git_repository_discover fs path with
  | Except.ok p => Except.ok (some p)
  | Except.error GErr.enotfound => Except.ok none
  | Except.error e => Except.error e

theorem discover_walk_cases (fs : FS) (path : List String) :
    (∃ p, git_repository_discover fs path = Except.ok p ∧
        fs.isRepo p = true ∧ p ∈ searchChain fs path) ∨
    (git_repository_discover fs path = Except.error GErr.enotfound ∧
        ∀ p ∈ searchChain fs path, fs.isRepo p = false) := by
  induction path with
  | nil =>
    by_cases h : fs.isRepo [] = true
    · exact Or.inl ⟨[], by simp [git_repository_discover, h], h, by simp [searchChain]⟩
    · refine Or.inr ⟨by simp [git_repository_discover, h], ?_⟩
      intro p hp
      simp [searchChain] at hp
      subst hp
      simpa using h
  | cons d rest ih =>
    by_cases h : fs.isRepo (d :: rest) = true
    · exact Or.inl ⟨d :: rest, by simp [git_repository_discover, h], h,
        by simp [searchChain]⟩
    · by_cases hdev : fs.dev rest = fs.dev (d :: rest)
      · rcases ih with ⟨p, hw, hrepo, hmem⟩ | ⟨hw, hnone⟩
        · refine Or.inl ⟨p, ?_, hrepo, ?_⟩
          · simp [git_repository_discover, h, hdev, hw]
          · simp [searchChain, hdev]
            exact Or.inr hmem
        · refine Or.inr ⟨by simp [git_repository_discover, h, hdev, hw], ?_⟩
          intro p hp
          simp [searchChain, hdev] at hp
          rcases hp with hp | hp
          · subst hp; simpa using h
          · exact hnone p hp
      · refine Or.inr ⟨by simp [git_repository_discover, h, hdev], ?_⟩
        intro p hp
        simp [searchChain, hdev] at hp
        subst hp
        simpa using h

/-- C6: discovery walks parent directories within one filesystem
device: it never raises an error, a returned location is a marked
repository directory on the searched parent chain, and when no
directory on that chain carries the marker the result is nil rather
than an error. -/
theorem discover_spec (fs : FS) (path : List String) :
    (∃ r, git2r_repository_discover fs path = Except.ok r) ∧
    (∀ p, git2r_repository_discover fs path = Except.ok (some p) →
        fs.isRepo p = true ∧ p ∈ searchChain fs path) ∧
    ((∀ p ∈ searchChain fs path, fs.isRepo p = false) →
        git2r_repository_discover fs path = Except.ok none) := by
  rcases discover_walk_cases fs path with ⟨p0, hw, hrepo, hmem⟩ | ⟨hw, hnone⟩
  · refine ⟨⟨some p0, by simp [git2r_repository_discover, hw]⟩, ?_, ?_⟩
    · intro p hp
      simp [git2r_repository_discover, hw] at hp
      subst hp
      exact ⟨hrepo, hmem⟩
    · intro hall
      exact absurd hrepo (by simp [hall p0 hmem])
  · refine ⟨⟨none, by simp [git2r_repository_discover, hw]⟩, ?_, ?_⟩
    · intro p hp
      simp [git2r_repository_discover, hw] at hp
    · intro _
      simp [git2r_repository_discover, hw]

/-- A filesystem with a repository marker at directory [repo] (the
start path [sub, repo] is a nested subdirectory of it), all on one
device. -/
def sampleFS : FS :=
  ⟨fun p => p == ["repo"], fun _ => 0⟩

/-- A filesystem with no repository marker anywhere. -/
def bareTmpFS : FS :=
  ⟨fun _ => false, fun _ => 0⟩

theorem discover_spec_witness :
    (∃ r, git2r_repository_discover sampleFS ["sub", "repo"] = Except.ok r) ∧
    (sampleFS.isRepo ["repo"] = true ∧ ["repo"] ∈ searchChain sampleFS ["sub", "repo"]) ∧
    git2r_repository_discover bareTmpFS ["tmp"] = Except.ok none := by
  refine ⟨(discover_spec sampleFS ["sub", "repo"]).1, ?_, ?_⟩
  · exact (discover_spec sampleFS ["sub", "repo"]).2.1 ["repo"] (by rfl)
  · exact (discover_spec bareTmpFS ["tmp"]).2.2 (by intro p _; rfl)

/-! ## workdir (src/git2r_repository.c and src/git2r.c, C7) -/

/-- An opened repository as the workdir bindings see it: whether it is
bare, and the working directory path the library would report for a
non-bare repository. -/
structure Repo where
  bare : Bool
  workdirPath : String
deriving DecidableEq, Repr

/-- Modelled from the spec: `git_repository_workdir` (libgit2) returns
the working directory path, or NULL for a bare repository. -/
def git_repository_workdir (r : Repo) : Option String :=
  if r.bare then none else some r.workdirPath

/-- Building an R string with mkChar from a C string: dereferencing a
NULL pointer is a crash, modelled as the nullDeref failure. -/
def mkCharModel : Option String → Except GErr String
  | none => Except.error GErr.nullDeref
  | some s => Except.ok s

/-- The routine `git2r_repository_workdir` (src/git2r_repository.c:313):
returns R_NilValue for a bare repository, and only otherwise reads
`git_repository_workdir` and wraps it in an R string. -/
def git2r_repository_workdir (r : Repo) : Except GErr (Option String) :=
  if r.bare = false then
    match mkCharModel (git_repository_workdir r) with
    | Except.error e => Except.error e
    | Except.ok s => Except.ok (some s)
  else Except.ok none

/-- The routine `workdir` (src/git2r.c:976): builds an R string from
`git_repository_workdir` unconditionally, with no bare check, so for
a bare repository it hands mkChar a NULL pointer. -/
def workdir (r : Repo) : Except GErr String :=
  match mkCharModel (git_repository_workdir r) with
  | Except.error e => Except.error e
  | Except.ok s => Except.ok s

/-- C7: `git2r_repository_workdir` returns the absent optional for a
bare repository and the working directory path otherwise, but the
`workdir` binding in git2r.c never returns an absent value: on a bare
repository it dereferences the NULL working directory instead of
returning nil, diverging from the claim. -/
theorem workdir_bare_divergence :
    git2r_repository_workdir (Repo.mk true "/r/") = Except.ok none ∧
    workdir (Repo.mk true "/r/") = Except.error GErr.nullDeref ∧
    git2r_repository_workdir (Repo.mk false "/r/") = Except.ok (some "/r/") ∧
    workdir (Repo.mk false "/r/") = Except.ok "/r/" :=
  ⟨rfl, rfl, rfl, rfl⟩

/-! ## revisions (src/git2r.c, C8) -/

/-- A repository as the revision walker sees it: whether
`git_repository_is_empty` holds, and the outcome of pushing HEAD and
walking (which can fail, e.g. on an unborn HEAD). -/
structure RevRepo where
  isEmpty : Bool
  headRevs : Except GErr (List Nat)

/-- The routine `revisions` (src/git2r.c:813): when the repository is
empty it allocates an empty list and jumps straight to cleanup with
err = 0; only otherwise does it create a walker, push HEAD and
collect the commits, raising an R error if the walk fails. -/
def revisions (r : RevRepo) : Except GErr (List Nat) :=
  if r.isEmpty then Except.ok []
  else match r.headRevs with
    | Except.error e => Except.error e
    | Except.ok l => Except.ok l

/-- C8: walking the revision history of an empty repository yields an
empty sequence and raises no error, whatever walking HEAD would have
produced. -/
theorem revisions_empty_repo (r : RevRepo) (h : r.isEmpty = true) :
    revisions r = Except.ok [] := by
  simp [revisions, h]

theorem revisions_empty_repo_witness :
    revisions (RevRepo.mk true (Except.error GErr.enotfound)) = Except.ok [] :=
  revisions_empty_repo (RevRepo.mk true (Except.error GErr.enotfound)) rfl

/-! ## checkout (src/git2r.c, C9 and C10) -/

/-- The treeish argument of `checkout`: an S4 git_commit, git_tag or
git_tree object, the string HEAD, some other string, nil, or some
other R value. -/
inductive Treeish where
  | commitObj
  | tagObj
  | treeObj
  | headStr
  | otherStr : String → Treeish
  | nilArg
  | otherObj
deriving DecidableEq, Repr

/-- The treeish values for which `checkout` selects one of the four
actions of its switch instead of raising the invalid-arguments error. -/
def validTreeish : Treeish → Bool
  | Treeish.commitObj => true
  | Treeish.tagObj => true
  | Treeish.treeObj => true
  | Treeish.headStr => true
  | _ => false

/-- The mutable repository state `checkout` could touch: an abstract
working tree and reference state. -/
structure WorkState where
  workTree : Nat
  refsState : Nat
deriving DecidableEq, Repr

/-- The routine `checkout` (src/git2r.c:238): validates the treeish
and the repository, then switches on the action — every branch of the
switch is a TODO stub that breaks without doing any work and without
assigning the local `err`. The cleanup then tests `err`, which on
these paths still holds whatever was on the stack: `errInit` models
that indeterminate initial value. The repository state is threaded
through unchanged. -/
def checkout (errInit : Int) (repoValid : Bool) (treeish : Treeish) (st : WorkState) :
    Except GErr Unit × WorkState :=
  if validTreeish treeish = false then (Except.error GErr.einvalid, st)
  else if repoValid = false then (Except.error GErr.invalidRepository, st)
  else if errInit < 0 then (Except.error GErr.libgit2, st)
  else (Except.ok (), st)

theorem checkout_snd (errInit : Int) (repoValid : Bool) (treeish : Treeish)
    (st : WorkState) : (checkout errInit repoValid treeish st).2 = st := by
  unfold checkout
  split
  · rfl
  · split
    · rfl
    · split <;> rfl

/-- C9: for a valid repository and any valid treeish (commit, tag,
tree or the string HEAD), every branch of the checkout action switch
performs no work, so the working tree and reference state are
unchanged whatever the indeterminate err value makes the call
return. -/
theorem checkout_stub_preserves_state (errInit : Int) (treeish : Treeish)
    (st : WorkState) (h : validTreeish treeish = true) :
    (checkout errInit true treeish st).2 = st :=
  checkout_snd errInit true treeish st

theorem checkout_stub_preserves_state_witness :
    validTreeish Treeish.commitObj = true ∧
    (checkout (-7) true Treeish.commitObj (WorkState.mk 3 4)).2 = WorkState.mk 3 4 :=
  ⟨rfl, checkout_stub_preserves_state (-7) Treeish.commitObj (WorkState.mk 3 4) rfl⟩

/-- C10: with identical valid inputs, whether `checkout` raises an
error depends only on the uninitialized `err` it reads at cleanup:
a negative stack value reaches the error branch though no operation
failed, while a non-negative one returns success. -/
theorem checkout_error_not_input_determined :
    checkout (-1) true Treeish.commitObj (WorkState.mk 0 0) =
      (Except.error GErr.libgit2, WorkState.mk 0 0) ∧
    checkout 0 true Treeish.commitObj (WorkState.mk 0 0) =
      (Except.ok (), WorkState.mk 0 0) :=
  ⟨rfl, rfl⟩

end Git2r
